import Mathlib

/-!
Shallow embedding of the adaptive concurrency primitives implemented in
`performance_optimization_examples.c`: the adaptive spin lock
(`get_adaptive_spin_count`, `adaptive_spinlock_acquire`), the lock-free task
queue (`lockfree_enqueue`), batched collection of ready tasks
(`collect_ready_tasks_batch`), the dynamic fairness timeout
(`update_fairness_timeout`), and the work-stealing queue (`ws_push`,
`ws_steal`).

Machine integers are modelled as `Int` (C `int`/`int64_t` arithmetic never
overflows at the values involved here) or as `Nat` for the monotonically
increasing ring indices of the work-stealing queue.  Atomic loads and stores
are modelled as reads and writes of an explicit state; a compare-and-swap
whose outcome depends on concurrent interference is given the interference
as an explicit parameter (a schedule of CAS outcomes, or a boolean saying
whether the CAS won the race).
-/

namespace PerfOpt

/-! ### Adaptive spin lock -/

/-- Embedding of `get_adaptive_spin_count` (lines 18-29): the spin budget as a
function of the loaded `contention_count`. -/
def get_adaptive_spin_count (contention : Int) : Int :=
  if contention < 10 then 20
  else if contention < 100 then 40
  else 60

/-- Observable actions of one `adaptive_spinlock_acquire` call.  `pause` is the
hardware pause/yield spin iteration (line 40), `yieldCpu` is the
`sched_yield()` call on spin exhaustion (line 47), and `park` stands for a
`ParkingTable.park` call — it is part of the event vocabulary so that the
relation to the specification's parking step can be stated; the code in
`adaptive_spinlock_acquire` never performs it. -/
inductive AcquireEvent where
  | pause
  | yieldCpu
  | park
deriving DecidableEq, Repr

/-- Contention-count update on successful acquisition (lines 53-56):
`if (atomic_load(&lock->contention_count) > 0) atomic_fetch_sub(..., 1)`. -/
def contention_on_acquire (c : Int) : Int :=
  if c > 0 then c - 1 else c

/-- Contention-count update on spin exhaustion (line 46):
`atomic_fetch_add(&lock->contention_count, 1)`. -/
def contention_on_exhaust (c : Int) : Int :=
  c + 1

/-- The retry loop of `adaptive_spinlock_acquire` (lines 36-56).  `cas k` is
the outcome of the k-th compare-and-swap attempt on the lock word (it succeeds
exactly when the lock word is 0 at that instant, which depends on concurrent
holders, hence the explicit schedule).  `fuel` bounds the number of attempts
modelled; `none` means the lock was not obtained within `fuel` attempts.  On
success the function returns the updated contention count and the trace of
spin events, mirroring the loop body: a failed CAS with `spin_count <
max_spin` pauses and increments `spin_count` (post-increment at line 37),
otherwise it increments the contention count, yields the CPU and resets
`spin_count` to 0. -/
def acquireLoop (max_spin : Int) (cas : Nat → Bool) :
    Int → Int → Nat → Nat → List AcquireEvent → Option (Int × List AcquireEvent)
  | _, _, _, 0, _ => none
  | spin_count, contention, k, fuel+1, events =>
    if cas k then
      some (contention_on_acquire contention, events)
    else if spin_count < max_spin then
      acquireLoop max_spin cas (spin_count + 1) contention (k + 1) fuel
        (events ++ [.pause])
    else
      acquireLoop max_spin cas 0 (contention_on_exhaust contention) (k + 1) fuel
        (events ++ [.yieldCpu])

/-- Embedding of `adaptive_spinlock_acquire` (lines 31-59): `max_spin` is
computed once at entry from the current contention count (line 34), then the
CAS retry loop runs. -/
def adaptive_spinlock_acquire (contention : Int) (cas : Nat → Bool) (fuel : Nat) :
    Option (Int × List AcquireEvent) :=
  acquireLoop (get_adaptive_spin_count contention) cas 0 contention 0 fuel []

/-! ### Dynamic fairness timeout -/

/-- The timeout tiers of `update_fairness_timeout` (lines 211-220) as a
function of the updated average wait time. -/
def fairness_timeout_of_avg (avg : Int) : Int :=
  if avg < 100 then 500
  else if avg < 1000 then 1000
  else 2000

/-- Embedding of `update_fairness_timeout` (lines 204-221): returns the new
`wait_time_avg` and the new `fairness_timeout_us`.  C signed division
truncates toward zero, which is `Int.tdiv`. -/
def update_fairness_timeout (old_avg wait_time_us : Int) : Int × Int :=
  let new_avg := Int.tdiv (old_avg * 7 + wait_time_us) 8
  (new_avg, fairness_timeout_of_avg new_avg)

/-! ### Work-stealing queue -/

/-- Embedding of `WorkStealingQueue` (lines 227-232).  The slot array is a
list of length `capacity`; `top` and `bottom` are the monotonically increasing
indices (C `int`, never negative in any execution starting from 0). -/
structure WorkStealingQueue (α : Type) where
  tasks : List α
  top : Nat
  bottom : Nat
  capacity : Nat
deriving Repr, DecidableEq

/-- Embedding of `ws_push` (lines 235-247): reject with -1 when
`b - t >= capacity`, otherwise store into slot `b % capacity`, publish
`bottom = b + 1` and return 0. -/
def ws_push {α : Type} (q : WorkStealingQueue α) (task : α) :
    Int × WorkStealingQueue α :=
  let b := q.bottom
  let t := q.top
  if q.capacity ≤ b - t then
    (-1, q)
  else
    (0, { q with tasks := q.tasks.set (b % q.capacity) task, bottom := b + 1 })

/-- Embedding of `ws_steal` (lines 250-265): return `none` when `t >= b`
(empty); otherwise read the task at slot `t % capacity` and attempt the CAS of
`top` from `t` to `t + 1`.  `cas_ok` is the outcome of that CAS (it fails when
another stealer or the owner raced `top` past `t`); on failure the call
returns `none` and this call changes nothing. -/
def ws_steal {α : Type} (q : WorkStealingQueue α) (cas_ok : Bool) :
    Option α × WorkStealingQueue α :=
  let t := q.top
  let b := q.bottom
  if b ≤ t then
    (none, q)
  else if cas_ok then
    (q.tasks.get? (t % q.capacity), { q with top := t + 1 })
  else
    (none, q)

/-! ### Batch collection of ready tasks -/

/-- `BATCH_SIZE` (line 110). -/
def BATCH_SIZE : Nat := 16

/-- The collection loop of `collect_ready_tasks_batch` (lines 124-129): pop
from the ready queue while the batch has fewer than `BATCH_SIZE` items and the
queue is non-empty.  `room` is `BATCH_SIZE - batch->count`, the number of free
batch slots left; returns the filled batch and the remaining queue. -/
def collectLoop (α : Type) : Nat → List α → List α → List α × List α
  | _, [], batch => (batch, [])
  | 0, ready, batch => (batch, ready)
  | room+1, task :: ready, batch => collectLoop α room ready (batch ++ [task])

/-- Embedding of `collect_ready_tasks_batch` (lines 118-134): start from an
empty batch (`batch->count = 0`, line 119) and run the collection loop. -/
def collect_ready_tasks_batch {α : Type} (ready : List α) : List α × List α :=
  collectLoop α BATCH_SIZE ready []

/-- Repeatedly draining a ready queue with `collect_ready_tasks_batch` until
it is empty; `fuel` bounds the number of batches (any fuel at least the queue
length suffices). -/
def drainBatches (α : Type) : Nat → List α → List (List α)
  | 0, _ => []
  | _+1, [] => []
  | fuel+1, ready =>
    let r := collect_ready_tasks_batch ready
    r.1 :: drainBatches α fuel r.2

/-! ### Lock-free task queue -/

/-- Embedding of `LockFreeTaskQueue` (lines 70-74).  The linked nodes are the
payload list `nodes` in link order: the node at index `i` has `next` pointing
to the node at index `i + 1`, and the last node's `next` is null.  `headIdx`
and `tailIdx` are the indices the `head` and `tail` pointers point to;
`tailIdx` may lag behind the last node (a half-finished insertion by another
producer leaves exactly this state: the new node is linked but `tail` not yet
advanced). -/
structure LockFreeTaskQueue (α : Type) where
  nodes : List α
  headIdx : Nat
  tailIdx : Nat
  size : Int
deriving Repr, DecidableEq

/-- The `next` link of the node `tailIdx` points to: the node at
`tailIdx + 1` when one exists, null otherwise. -/
def tailNext {α : Type} (nodes : List α) (tailIdx : Nat) : Option Nat :=
  if tailIdx + 1 < nodes.length then some (tailIdx + 1) else none

/-- The outcome of one iteration of the retry loop in `lockfree_enqueue`
(lines 85-99): `help nx` means the iteration CAS-advanced `queue->tail` to the
observed non-null `next` node `nx` on another thread's behalf and retried;
`link p` means the iteration CAS-linked the new node at node `p`'s null `next`
and left the loop; `restart` means the consistency re-read of `queue->tail`
(line 89) no longer matched `prev_tail` and the iteration did nothing. -/
inductive EnqueueAction where
  | help (newTail : Nat)
  | link (prevTail : Nat)
  | restart
deriving Repr, DecidableEq

/-- One iteration of the retry loop of `lockfree_enqueue` (lines 85-99), with
all three atomic loads (`prev_tail`, `prev_tail->next`, the re-read of
`queue->tail`) taken from the same state `(nodes, tailIdx)`. -/
def enqueueStep {α : Type} (nodes : List α) (tailIdx : Nat) : EnqueueAction :=
  let prev_tail := tailIdx
  let next := tailNext nodes prev_tail
  if prev_tail = tailIdx then
    match next with
    | none => .link prev_tail
    | some nx => .help nx
  else
    .restart

/-- The full retry loop of `lockfree_enqueue` run to completion on a fixed
state: while the observed tail has a non-null `next`, advance the tail index
(the help branch) and retry; once `next` is null, CAS-link the new node after
the last node.  Returns the new node chain and the index `prev_tail` at which
the link succeeded. -/
def enqueueLoop {α : Type} (nodes : List α) (tailIdx : Nat) (node : α) :
    List α × Nat :=
  if h : tailIdx + 1 < nodes.length then
    enqueueLoop nodes (tailIdx + 1) node
  else
    (nodes ++ [node], tailIdx)
termination_by nodes.length - tailIdx
decreasing_by omega

/-- Embedding of `lockfree_enqueue` (lines 77-103).  `alloc_ok` is the outcome
of `PyMem_Malloc` (line 78): when it fails the function returns -1 at once
(line 79) and the queue is untouched.  Otherwise the retry loop links the new
node, the final CAS (line 101) swings `queue->tail` from `prev_tail` to the
new node (the last node of the new chain), the size is incremented (line 102)
and 0 is returned. -/
def lockfree_enqueue {α : Type} (q : LockFreeTaskQueue α) (task : α)
    (alloc_ok : Bool) : Int × LockFreeTaskQueue α :=
  if alloc_ok = false then
    (-1, q)
  else
    let r := enqueueLoop q.nodes q.tailIdx task
    (0, { nodes := r.1, headIdx := q.headIdx, tailIdx := r.1.length - 1,
          size := q.size + 1 })

/-! ### Concurrent transition system for the adaptive spin lock -/

/-- The per-thread control state of a thread using
`adaptive_spinlock_acquire`: not in the critical region, inside the CAS retry
loop, or holding the lock (returned from acquire, not yet released). -/
inductive ThreadState where
  | idle
  | trying
  | holding
deriving Repr, DecidableEq

/-- A system of `n` threads sharing one `AdaptiveSpinLock`: the atomic lock
word (`lock->lock`), the atomic contention count (`lock->contention_count`)
and each thread's control state. -/
structure MutexSystem (n : Nat) where
  lock : Int
  contention : Int
  ts : Fin n → ThreadState

/-- Interleaving semantics of `n` threads running `adaptive_spinlock_acquire`
and release on one `AdaptiveSpinLock`.  `casSuccess` is the only transition
that makes a thread a holder, and it requires the compare-and-swap at line 36
to change the lock word from 0 to 1.  `spinPause` is a failed CAS within the
spin budget (line 40), `spinExhaust` a failed CAS on spin exhaustion
(lines 46-48), both leave the lock word and thread states unchanged.
The release transition is modelled from the spec: release is not in the
source; §4.2 step 6 says it atomically clears `LOCKED`, so it resets the lock
word to 0. -/
inductive MutexStep (n : Nat) : MutexSystem n → MutexSystem n → Prop where
  | callAcquire (s : MutexSystem n) (i : Fin n) (h : s.ts i = .idle) :
      MutexStep n s ⟨s.lock, s.contention, Function.update s.ts i .trying⟩
  | casSuccess (s : MutexSystem n) (i : Fin n) (h : s.ts i = .trying)
      (hl : s.lock = 0) :
      MutexStep n s
        ⟨1, contention_on_acquire s.contention, Function.update s.ts i .holding⟩
  | spinPause (s : MutexSystem n) (i : Fin n) (h : s.ts i = .trying)
      (hl : s.lock ≠ 0) :
      MutexStep n s s
  | spinExhaust (s : MutexSystem n) (i : Fin n) (h : s.ts i = .trying)
      (hl : s.lock ≠ 0) :
      MutexStep n s ⟨s.lock, contention_on_exhaust s.contention, s.ts⟩
  | release (s : MutexSystem n) (i : Fin n) (h : s.ts i = .holding) :
      MutexStep n s ⟨0, s.contention, Function.update s.ts i .idle⟩

/-- States reachable from the initial system: lock word 0, contention 0, all
threads idle. -/
inductive MutexReachable (n : Nat) : MutexSystem n → Prop where
  | init : MutexReachable n ⟨0, 0, fun _ => .idle⟩
  | step (s s' : MutexSystem n) (hr : MutexReachable n s)
      (hs : MutexStep n s s') : MutexReachable n s'

/-- The mutual-exclusion invariant: when the lock word is 0 nobody holds the
lock, and at most one thread holds it. -/
def MutexInv {n : Nat} (s : MutexSystem n) : Prop :=
  (s.lock = 0 → ∀ i, s.ts i ≠ .holding) ∧
  (∀ i j, s.ts i = .holding → s.ts j = .holding → i = j)

/-! ### C4: spin-budget tiers -/

/-- C4: for every contention value, `get_adaptive_spin_count` takes exactly
one of the three tier values 20, 40, 60; contention below 10 gives 20,
contention in [10, 100) gives 40, contention at least 100 gives 60; and the
budget is monotonically nondecreasing in the contention estimate. -/
theorem C4_spin_budget_tiers :
    (∀ c : Int, get_adaptive_spin_count c = 20 ∨ get_adaptive_spin_count c = 40 ∨
      get_adaptive_spin_count c = 60) ∧
    (∀ c : Int, c < 10 → get_adaptive_spin_count c = 20) ∧
    (∀ c : Int, 10 ≤ c → c < 100 → get_adaptive_spin_count c = 40) ∧
    (∀ c : Int, 100 ≤ c → get_adaptive_spin_count c = 60) ∧
    (∀ c₁ c₂ : Int, c₁ ≤ c₂ →
      get_adaptive_spin_count c₁ ≤ get_adaptive_spin_count c₂) := by
  refine ⟨?_, ?_, ?_, ?_, ?_⟩ <;> intros <;> unfold get_adaptive_spin_count <;>
    split_ifs <;> omega

/-- Witness for C4 at concrete contention values 5, 50, 200. -/
theorem C4_spin_budget_tiers_witness :
    get_adaptive_spin_count 5 = 20 ∧ get_adaptive_spin_count 50 = 40 ∧
    get_adaptive_spin_count 200 = 60 ∧
    get_adaptive_spin_count 5 ≤ get_adaptive_spin_count 200 :=
  ⟨C4_spin_budget_tiers.2.1 5 (by decide),
   C4_spin_budget_tiers.2.2.1 50 (by decide) (by decide),
   C4_spin_budget_tiers.2.2.2.1 200 (by decide),
   C4_spin_budget_tiers.2.2.2.2 5 200 (by decide)⟩

/-! ### C6: fairness timeout -/

/-- C6: `update_fairness_timeout` sets the timeout as a function of the
updated moving average `(old * 7 + wait) tdiv 8`; that function is
monotonically nondecreasing in the average, always clamped in [500, 2000],
and takes the tier values 500 (average below 100), 1000 (average in
[100, 1000)) and 2000 (average at least 1000). -/
theorem C6_fairness_timeout_adaptive :
    (∀ old wait : Int, (update_fairness_timeout old wait).2 =
      fairness_timeout_of_avg (Int.tdiv (old * 7 + wait) 8)) ∧
    (∀ a₁ a₂ : Int, a₁ ≤ a₂ →
      fairness_timeout_of_avg a₁ ≤ fairness_timeout_of_avg a₂) ∧
    (∀ a : Int, 500 ≤ fairness_timeout_of_avg a ∧
      fairness_timeout_of_avg a ≤ 2000) ∧
    (∀ a : Int, a < 100 → fairness_timeout_of_avg a = 500) ∧
    (∀ a : Int, 100 ≤ a → a < 1000 → fairness_timeout_of_avg a = 1000) ∧
    (∀ a : Int, 1000 ≤ a → fairness_timeout_of_avg a = 2000) := by
  refine ⟨fun old wait => rfl, ?_, ?_, ?_, ?_, ?_⟩ <;> intros <;>
    unfold fairness_timeout_of_avg <;> split_ifs <;> omega

/-- Witness for C6 at concrete inputs: old average 0 and wait sample 80 give
average 10 and timeout 500; the tiers at averages 10, 500, 5000. -/
theorem C6_fairness_timeout_adaptive_witness :
    (update_fairness_timeout 0 80).2 =
      fairness_timeout_of_avg (Int.tdiv (0 * 7 + 80) 8) ∧
    fairness_timeout_of_avg 10 ≤ fairness_timeout_of_avg 5000 ∧
    (500 ≤ fairness_timeout_of_avg 10 ∧ fairness_timeout_of_avg 10 ≤ 2000) ∧
    fairness_timeout_of_avg 10 = 500 ∧
    fairness_timeout_of_avg 500 = 1000 ∧
    fairness_timeout_of_avg 5000 = 2000 :=
  ⟨C6_fairness_timeout_adaptive.1 0 80,
   C6_fairness_timeout_adaptive.2.1 10 5000 (by decide),
   C6_fairness_timeout_adaptive.2.2.1 10,
   C6_fairness_timeout_adaptive.2.2.2.1 10 (by decide),
   C6_fairness_timeout_adaptive.2.2.2.2.1 500 (by decide) (by decide),
   C6_fairness_timeout_adaptive.2.2.2.2.2 5000 (by decide)⟩

/-! ### C7: ws_push full rejection -/

/-- C7: for every deque state satisfying the documented invariant
`top ≤ bottom` and `bottom - top ≤ capacity`, `ws_push` rejects with -1
exactly when the logical size `bottom - top` equals the capacity, leaving the
whole state unchanged on rejection; otherwise it writes the item into slot
`bottom % capacity`, publishes `bottom + 1`, and returns 0. -/
theorem C7_ws_push_full_rejects (q : WorkStealingQueue Nat) (task : Nat)
    (hts : q.top ≤ q.bottom) (hsize : q.bottom - q.top ≤ q.capacity) :
    ((ws_push q task).1 = -1 ↔ q.bottom - q.top = q.capacity) ∧
    ((ws_push q task).1 = -1 → (ws_push q task).2 = q) ∧
    (q.bottom - q.top < q.capacity →
      (ws_push q task).1 = 0 ∧
      (ws_push q task).2.tasks = q.tasks.set (q.bottom % q.capacity) task ∧
      (ws_push q task).2.bottom = q.bottom + 1 ∧
      (ws_push q task).2.top = q.top ∧
      (ws_push q task).2.capacity = q.capacity) := by
  dsimp only [ws_push]
  split_ifs with h
  · exact ⟨⟨fun _ => by omega, fun _ => rfl⟩, fun _ => rfl,
      fun hlt => absurd hlt (by omega)⟩
  · exact ⟨⟨fun hc => absurd hc (by decide), fun hc => absurd hc (by omega)⟩,
      fun hc => absurd hc (by decide), fun _ => ⟨rfl, rfl, rfl, rfl, rfl⟩⟩

/-- Witness for C7: a deque of capacity 2 holding one item accepts a push into
slot 1 and publishes bottom 2; the same deque with bottom 2 is full and
rejects unchanged. -/
theorem C7_ws_push_full_rejects_witness :
    ((ws_push ⟨[5, 6], 0, 1, 2⟩ 9).1 = 0 ∧
      (ws_push ⟨[5, 6], 0, 1, 2⟩ 9).2.tasks = [5, 6].set (1 % 2) 9 ∧
      (ws_push ⟨[5, 6], 0, 1, 2⟩ 9).2.bottom = 2 ∧
      (ws_push ⟨[5, 6], 0, 1, 2⟩ 9).2.top = 0 ∧
      (ws_push ⟨[5, 6], 0, 1, 2⟩ 9).2.capacity = 2) ∧
    ((ws_push ⟨[5, 9], 0, 2, 2⟩ 7).1 = -1 ↔ 2 - 0 = 2) ∧
    ((ws_push ⟨[5, 9], 0, 2, 2⟩ 7).1 = -1 → (ws_push ⟨[5, 9], 0, 2, 2⟩ 7).2 =
      ⟨[5, 9], 0, 2, 2⟩) :=
  ⟨(C7_ws_push_full_rejects ⟨[5, 6], 0, 1, 2⟩ 9 (by decide) (by decide)).2.2
      (by decide),
   (C7_ws_push_full_rejects ⟨[5, 9], 0, 2, 2⟩ 7 (by decide) (by decide)).1,
   (C7_ws_push_full_rejects ⟨[5, 9], 0, 2, 2⟩ 7 (by decide) (by decide)).2.1⟩

/-! ### C10: ws_steal frame conditions -/

/-- C10: `ws_steal` never modifies `bottom`, the slot array or the capacity;
when the deque is observed empty (`top ≥ bottom`) it returns `none` and the
state is unchanged; when non-empty and the CAS on `top` wins, it returns the
item at slot `old top % capacity` and increments `top` by exactly one; when
the CAS loses it returns `none` and the state is unchanged. -/
theorem C10_ws_steal_frame (q : WorkStealingQueue Nat) (cas_ok : Bool) :
    ((ws_steal q cas_ok).2.bottom = q.bottom ∧
     (ws_steal q cas_ok).2.tasks = q.tasks ∧
     (ws_steal q cas_ok).2.capacity = q.capacity) ∧
    (q.bottom ≤ q.top → ws_steal q cas_ok = (none, q)) ∧
    (q.top < q.bottom → cas_ok = true →
      (ws_steal q cas_ok).1 = q.tasks.get? (q.top % q.capacity) ∧
      (ws_steal q cas_ok).2.top = q.top + 1) ∧
    (q.top < q.bottom → cas_ok = false → ws_steal q cas_ok = (none, q)) := by
  dsimp only [ws_steal]
  split_ifs with h1 h2
  · exact ⟨⟨rfl, rfl, rfl⟩, fun _ => rfl, fun hlt _ => absurd h1 (by omega),
      fun hlt _ => absurd h1 (by omega)⟩
  · exact ⟨⟨rfl, rfl, rfl⟩, fun hle => absurd hle (by omega),
      fun _ _ => ⟨rfl, rfl⟩, fun _ hc => by rw [hc] at h2; exact absurd h2 (by decide)⟩
  · exact ⟨⟨rfl, rfl, rfl⟩, fun hle => absurd hle (by omega),
      fun _ hc => absurd hc h2, fun _ _ => rfl⟩

/-- Witness for C10: stealing from a deque with top 0, bottom 2 and a winning
CAS returns the slot-0 item and increments only top; a losing CAS leaves the
deque unchanged. -/
theorem C10_ws_steal_frame_witness :
    ((ws_steal ⟨[3, 4], 0, 2, 2⟩ true).1 = [3, 4].get? (0 % 2) ∧
      (ws_steal ⟨[3, 4], 0, 2, 2⟩ true).2.top = 0 + 1) ∧
    (ws_steal ⟨[3, 4], 0, 2, 2⟩ true).2.bottom = 2 ∧
    (ws_steal ⟨[3, 4], 0, 2, 2⟩ true).2.tasks = [3, 4] ∧
    ws_steal ⟨[3, 4], 0, 2, 2⟩ false = (none, ⟨[3, 4], 0, 2, 2⟩) :=
  ⟨(C10_ws_steal_frame ⟨[3, 4], 0, 2, 2⟩ true).2.2.1 (by decide) rfl,
   (C10_ws_steal_frame ⟨[3, 4], 0, 2, 2⟩ true).1.1,
   (C10_ws_steal_frame ⟨[3, 4], 0, 2, 2⟩ true).1.2.1,
   (C10_ws_steal_frame ⟨[3, 4], 0, 2, 2⟩ false).2.2.2 (by decide) rfl⟩

/-! ### C9: batch collection -/

/-- The collection loop appends the first `room` ready tasks to the batch and
leaves the rest of the queue. -/
theorem collectLoop_eq (α : Type) (room : Nat) (ready batch : List α) :
    collectLoop α room ready batch = (batch ++ ready.take room, ready.drop room) := by
  induction room generalizing ready batch with
  | zero => cases ready <;> simp [collectLoop]
  | succ n ih => cases ready <;> simp [collectLoop, ih]

/-- C9: each call to `collect_ready_tasks_batch` returns at most
`BATCH_SIZE = 16` items, returns fewer than 16 only when it emptied the
source, and draining a source of 50 ready items yields exactly 4 batches of
sizes 16, 16, 16, 2 in that order. -/
theorem C9_batch_sizes :
    (∀ (α : Type) (ready : List α),
      (collect_ready_tasks_batch ready).1.length ≤ 16) ∧
    (∀ (α : Type) (ready : List α),
      (collect_ready_tasks_batch ready).1.length < 16 →
      (collect_ready_tasks_batch ready).2 = []) ∧
    (drainBatches Nat 50 (List.range 50)).length = 4 ∧
    (drainBatches Nat 50 (List.range 50)).map List.length = [16, 16, 16, 2] := by
  refine ⟨?_, ?_, by decide, by decide⟩
  · intro α ready
    simp [collect_ready_tasks_batch, collectLoop_eq, BATCH_SIZE]
  · intro α ready h
    simp only [collect_ready_tasks_batch, collectLoop_eq, BATCH_SIZE,
      List.nil_append] at h ⊢
    rw [List.length_take] at h
    exact List.drop_eq_nil_of_le (by omega)

/-- Witness for C9: collecting from a 5-item source yields fewer than 16
items and leaves the source empty. -/
theorem C9_batch_sizes_witness :
    (collect_ready_tasks_batch (List.range 5)).1.length ≤ 16 ∧
    (collect_ready_tasks_batch (List.range 5)).2 = ([] : List Nat) :=
  ⟨C9_batch_sizes.1 Nat (List.range 5),
   C9_batch_sizes.2.1 Nat (List.range 5) (by decide)⟩

/-! ### C2 and C8: lock-free enqueue -/

/-- Run to completion, the enqueue retry loop appends exactly the one new node
after the last node of the chain, and the link happens at the last node. -/
theorem enqueueLoop_eq (α : Type) (nodes : List α) (tailIdx : Nat) (node : α)
    (h : tailIdx < nodes.length) :
    enqueueLoop nodes tailIdx node = (nodes ++ [node], nodes.length - 1) := by
  have key : ∀ m t, t < nodes.length → nodes.length - t ≤ m →
      enqueueLoop nodes t node = (nodes ++ [node], nodes.length - 1) := by
    intro m
    induction m with
    | zero => intro t ht hle; omega
    | succ m ih =>
      intro t ht hle
      rw [enqueueLoop]
      split_ifs with h1
      · exact ih (t + 1) h1 (by omega)
      · have ht1 : t = nodes.length - 1 := by omega
        rw [ht1]
  exact key (nodes.length - tailIdx) tailIdx h le_rfl

/-- C2: in an enqueue retry iteration, whenever the observed tail node's
`next` link is non-null, the iteration takes the helping branch — it advances
the queue's tail to that `next` node (which is the successor `t + 1`) and then
the loop retries from the advanced tail; the new node is linked (`link`) only
when the observed `next` is null. -/
theorem C2_enqueue_helping (α : Type) (nodes : List α) (t : Nat) (node : α) :
    (∀ nx, tailNext nodes t = some nx →
      enqueueStep nodes t = EnqueueAction.help nx ∧ nx = t + 1 ∧
      enqueueLoop nodes t node = enqueueLoop nodes (t + 1) node) ∧
    (tailNext nodes t = none →
      enqueueStep nodes t = EnqueueAction.link t ∧
      enqueueLoop nodes t node = (nodes ++ [node], t)) ∧
    (∀ p, enqueueStep nodes t = EnqueueAction.link p →
      tailNext nodes t = none) := by
  refine ⟨?_, ?_, ?_⟩
  · intro nx hnx
    simp only [tailNext] at hnx
    split_ifs at hnx with h1
    injection hnx with hnx1
    subst hnx1
    refine ⟨by simp [enqueueStep, tailNext, h1], rfl, ?_⟩
    rw [enqueueLoop, dif_pos h1]
  · intro hn
    have h1 : ¬ t + 1 < nodes.length := by
      intro hc; simp [tailNext, hc] at hn
    refine ⟨by simp [enqueueStep, tailNext, h1], ?_⟩
    rw [enqueueLoop, dif_neg h1]
  · intro p hp
    by_cases h1 : t + 1 < nodes.length
    · simp [enqueueStep, tailNext, h1] at hp
    · simp [tailNext, h1]

/-- Witness for C2 on a two-node chain with a lagging tail: the observed
`next` is node 1, the iteration helps by advancing the tail to 1, and on the
advanced (last) node the step links. -/
theorem C2_enqueue_helping_witness :
    (enqueueStep [10, 11] 0 = EnqueueAction.help 1 ∧ (1 : Nat) = 0 + 1 ∧
      enqueueLoop [10, 11] 0 9 = enqueueLoop [10, 11] (0 + 1) 9) ∧
    (enqueueStep [10, 11] 1 = EnqueueAction.link 1 ∧
      enqueueLoop [10, 11] 1 9 = ([10, 11] ++ [9], 1)) :=
  ⟨(C2_enqueue_helping Nat [10, 11] 0 9).1 1 (by decide),
   (C2_enqueue_helping Nat [10, 11] 1 9).2.1 (by decide)⟩

/-- C8: `lockfree_enqueue` returns -1 exactly when node allocation fails, and
then the queue (nodes, head, tail, size) is unchanged; otherwise it returns 0
having linked exactly one new node, incremented the size by one, left the
head unchanged, and swung the tail to the new node. -/
theorem C8_enqueue_alloc_failure (α : Type) (q : LockFreeTaskQueue α)
    (task : α) (alloc_ok : Bool) (hinv : q.tailIdx < q.nodes.length) :
    ((lockfree_enqueue q task alloc_ok).1 = -1 ↔ alloc_ok = false) ∧
    (alloc_ok = false → (lockfree_enqueue q task alloc_ok).2 = q) ∧
    (alloc_ok = true →
      (lockfree_enqueue q task alloc_ok).1 = 0 ∧
      (lockfree_enqueue q task alloc_ok).2.nodes = q.nodes ++ [task] ∧
      (lockfree_enqueue q task alloc_ok).2.size = q.size + 1 ∧
      (lockfree_enqueue q task alloc_ok).2.headIdx = q.headIdx ∧
      (lockfree_enqueue q task alloc_ok).2.tailIdx = q.nodes.length) := by
  cases alloc_ok with
  | false =>
    exact ⟨⟨fun _ => rfl, fun _ => rfl⟩, fun _ => rfl, fun hc => by cases hc⟩
  | true =>
    have he := enqueueLoop_eq α q.nodes q.tailIdx task hinv
    refine ⟨?_, ?_, ?_⟩
    · simp [lockfree_enqueue, he]
    · intro hc
      exact absurd hc (by decide)
    · intro hc
      refine ⟨?_, ?_, ?_, ?_, ?_⟩ <;> simp [lockfree_enqueue, he]

/-- Witness for C8 on a one-node queue: failed allocation returns -1 with the
queue untouched; successful allocation returns 0, appends the one node, and
bumps the size. -/
theorem C8_enqueue_alloc_failure_witness :
    ((lockfree_enqueue ⟨[0], 0, 0, 0⟩ 7 false).1 = -1 ↔ false = false) ∧
    (lockfree_enqueue (⟨[0], 0, 0, 0⟩ : LockFreeTaskQueue Nat) 7 false).2 =
      ⟨[0], 0, 0, 0⟩ ∧
    (lockfree_enqueue ⟨[0], 0, 0, 0⟩ 7 true).1 = 0 ∧
    (lockfree_enqueue (⟨[0], 0, 0, 0⟩ : LockFreeTaskQueue Nat) 7 true).2.nodes =
      [0] ++ [7] ∧
    (lockfree_enqueue (⟨[0], 0, 0, 0⟩ : LockFreeTaskQueue Nat) 7 true).2.size = 0 + 1 :=
  ⟨(C8_enqueue_alloc_failure Nat ⟨[0], 0, 0, 0⟩ 7 false (by decide)).1,
   (C8_enqueue_alloc_failure Nat ⟨[0], 0, 0, 0⟩ 7 false (by decide)).2.1 rfl,
   ((C8_enqueue_alloc_failure Nat ⟨[0], 0, 0, 0⟩ 7 true (by decide)).2.2 rfl).1,
   ((C8_enqueue_alloc_failure Nat ⟨[0], 0, 0, 0⟩ 7 true (by decide)).2.2 rfl).2.1,
   ((C8_enqueue_alloc_failure Nat ⟨[0], 0, 0, 0⟩ 7 true (by decide)).2.2 rfl).2.2.1⟩

/-! ### C3: behaviour on spin exhaustion -/

/-- The acquire retry loop never emits a `park` event: every iteration adds
only `pause` or `yieldCpu` to the trace. -/
theorem acquireLoop_no_park (max_spin : Int) (cas : Nat → Bool) :
    ∀ (fuel : Nat) (spin contention : Int) (k : Nat)
      (events : List AcquireEvent) (r : Int × List AcquireEvent),
      AcquireEvent.park ∉ events →
      acquireLoop max_spin cas spin contention k fuel events = some r →
      AcquireEvent.park ∉ r.2 := by
  intro fuel
  induction fuel with
  | zero =>
    intro spin c k ev r hev h
    simp [acquireLoop] at h
  | succ fuel ih =>
    intro spin c k ev r hev h
    simp only [acquireLoop] at h
    split_ifs at h with hcas hspin
    · injection h with h1
      subst h1
      exact hev
    · exact ih _ _ _ _ r (by simp [hev]) h
    · exact ih _ _ _ _ r (by simp [hev]) h

/-- C3 counterexample: with contention 0 (so `max_spin = 20`) and a lock that
stays contended until the 23rd CAS attempt, the spin budget is exhausted once;
the resulting trace is 20 pauses, one `sched_yield`, one more pause — it
contains a CPU yield and no park event, so the thread does not park in a
ParkingTable on spin exhaustion and never marks any `HAS_PARKED` state. -/
theorem C3_counterexample :
    adaptive_spinlock_acquire 0 (fun k => k == 22) 30 =
      some (0, List.replicate 20 AcquireEvent.pause ++
        [AcquireEvent.yieldCpu, AcquireEvent.pause]) ∧
    AcquireEvent.yieldCpu ∈ (List.replicate 20 AcquireEvent.pause ++
        [AcquireEvent.yieldCpu, AcquireEvent.pause]) ∧
    AcquireEvent.park ∉ (List.replicate 20 AcquireEvent.pause ++
        [AcquireEvent.yieldCpu, AcquireEvent.pause]) :=
  ⟨by decide, by decide, by decide⟩

/-- C3 amended: when the spin budget is exhausted without obtaining the lock,
the thread increments the contention count, yields the CPU (`sched_yield`,
traced as `yieldCpu`), resets its spin counter to 0 and retries the
compare-and-swap; it never parks (no trace of any completed acquire contains
a `park` event). -/
theorem C3_exhaust_increments_and_yields (max_spin spin_count contention : Int)
    (cas : Nat → Bool) (k fuel : Nat) (events : List AcquireEvent)
    (hcas : cas k = false) (hspin : ¬ spin_count < max_spin) :
    acquireLoop max_spin cas spin_count contention k (fuel + 1) events =
      acquireLoop max_spin cas 0 (contention + 1) (k + 1) fuel
        (events ++ [AcquireEvent.yieldCpu]) ∧
    (∀ (c : Int) (cas2 : Nat → Bool) (f : Nat) (r : Int × List AcquireEvent),
      adaptive_spinlock_acquire c cas2 f = some r →
      AcquireEvent.park ∉ r.2) := by
  constructor
  · simp [acquireLoop, hcas, hspin, contention_on_exhaust]
  · intro c cas2 f r h
    simp only [adaptive_spinlock_acquire] at h
    exact acquireLoop_no_park _ _ f 0 c 0 [] r (by simp) h

/-- Witness for amended C3: the exhaustion step at spin count 20 with budget
20, and the park-freedom of the concrete completed acquire from the
counterexample schedule. -/
theorem C3_exhaust_increments_and_yields_witness :
    (acquireLoop 20 (fun _ => false) 20 0 0 (2 + 1) [] =
      acquireLoop 20 (fun _ => false) 0 (0 + 1) (0 + 1) 2
        ([] ++ [AcquireEvent.yieldCpu])) ∧
    AcquireEvent.park ∉
      ((0 : Int), List.replicate 20 AcquireEvent.pause ++
        [AcquireEvent.yieldCpu, AcquireEvent.pause]).2 :=
  ⟨(C3_exhaust_increments_and_yields 20 20 0 (fun _ => false) 0 2 [] rfl
      (by decide)).1,
   (C3_exhaust_increments_and_yields 20 20 0 (fun _ => false) 0 2 [] rfl
      (by decide)).2 0 (fun k => k == 22) 30 _ (by decide)⟩

/-! ### C5: contention-estimate update -/

/-- C5 counterexample: the contention count consulted by
`get_adaptive_spin_count` is updated by unit steps, not by the exponential
moving average `(7 * old + sample) / 8`: the decay on successful acquisition
maps 80 to 79 and 8 to 7, but no single nonnegative sample makes the stated
moving average produce both; and the raise on exhaustion maps 100 to 101,
which the stated average cannot produce from any sample at most 100. -/
theorem C5_counterexample :
    contention_on_acquire 80 = 79 ∧ contention_on_acquire 8 = 7 ∧
    contention_on_exhaust 100 = 101 ∧
    (∀ s : Int, 0 ≤ s → ¬((7 * 80 + s) / 8 = 79 ∧ (7 * 8 + s) / 8 = 7)) ∧
    (∀ s : Int, s ≤ 100 → ¬(7 * 100 + s) / 8 = 101) := by
  refine ⟨by decide, by decide, by decide, ?_, ?_⟩
  · intro s hs h
    omega
  · intro s hs h
    omega

/-- C5 amended: the contention estimate consulted by the spin-budget
computation (`lock->contention_count`) is updated by unit steps — incremented
by one on each spin exhaustion and decremented by one on successful
acquisition when positive, unchanged otherwise; the exponential moving
average `(old * 7 + sample) tdiv 8` is applied only to the wait-time average
inside `update_fairness_timeout`, a separate quantity that the spin-budget
computation does not consult. -/
theorem C5_contention_unit_update :
    (∀ c : Int, contention_on_exhaust c = c + 1) ∧
    (∀ c : Int, 0 < c → contention_on_acquire c = c - 1) ∧
    (∀ c : Int, c ≤ 0 → contention_on_acquire c = c) ∧
    (∀ old wait : Int,
      (update_fairness_timeout old wait).1 = Int.tdiv (old * 7 + wait) 8) := by
  refine ⟨fun c => rfl, ?_, ?_, fun old wait => rfl⟩
  · intro c hc
    unfold contention_on_acquire
    rw [if_pos hc]
  · intro c hc
    unfold contention_on_acquire
    rw [if_neg (by omega)]

/-- Witness for amended C5 at contention values 100, 8, 0 and a wait-average
update from 0 with sample 80. -/
theorem C5_contention_unit_update_witness :
    contention_on_exhaust 100 = 100 + 1 ∧ contention_on_acquire 8 = 8 - 1 ∧
    contention_on_acquire 0 = 0 ∧
    (update_fairness_timeout 0 80).1 = Int.tdiv (0 * 7 + 80) 8 :=
  ⟨C5_contention_unit_update.1 100,
   C5_contention_unit_update.2.1 8 (by decide),
   C5_contention_unit_update.2.2.1 0 (by decide),
   C5_contention_unit_update.2.2.2 0 80⟩

/-! ### C1: mutual exclusion -/

/-- The initial system satisfies the mutual-exclusion invariant. -/
theorem mutexInv_init (n : Nat) :
    MutexInv (⟨0, 0, fun _ => .idle⟩ : MutexSystem n) := by
  constructor
  · intro _ i h
    simp at h
  · intro i j hi hj
    simp at hi

/-- Every transition preserves the mutual-exclusion invariant. -/
theorem mutexInv_step {n : Nat} {s s2 : MutexSystem n} (hs : MutexInv s)
    (hstep : MutexStep n s s2) : MutexInv s2 := by
  obtain ⟨h0, huniq⟩ := hs
  cases hstep with
  | callAcquire i h =>
    refine ⟨?_, ?_⟩
    · intro hl j hj
      have hl2 : s.lock = 0 := hl
      have hj2 : Function.update s.ts i ThreadState.trying j =
        ThreadState.holding := hj
      rcases eq_or_ne j i with rfl | hne
      · rw [Function.update_same] at hj2
        simp at hj2
      · rw [Function.update_noteq hne] at hj2
        exact h0 hl2 j hj2
    · intro j k hj hk
      have hj2 : Function.update s.ts i ThreadState.trying j =
        ThreadState.holding := hj
      have hk2 : Function.update s.ts i ThreadState.trying k =
        ThreadState.holding := hk
      rcases eq_or_ne j i with rfl | hnej
      · rw [Function.update_same] at hj2
        simp at hj2
      · rcases eq_or_ne k i with rfl | hnek
        · rw [Function.update_same] at hk2
          simp at hk2
        · rw [Function.update_noteq hnej] at hj2
          rw [Function.update_noteq hnek] at hk2
          exact huniq j k hj2 hk2
  | casSuccess i h hl =>
    refine ⟨?_, ?_⟩
    · intro h1 j hj
      have h12 : (1 : Int) = 0 := h1
      simp at h12
    · intro j k hj hk
      have hj2 : Function.update s.ts i ThreadState.holding j =
        ThreadState.holding := hj
      have hk2 : Function.update s.ts i ThreadState.holding k =
        ThreadState.holding := hk
      rcases eq_or_ne j i with rfl | hnej
      · rcases eq_or_ne k j with rfl | hnek
        · rfl
        · rw [Function.update_noteq hnek] at hk2
          exact absurd hk2 (h0 hl k)
      · rw [Function.update_noteq hnej] at hj2
        exact absurd hj2 (h0 hl j)
  | spinPause i h hl => exact ⟨h0, huniq⟩
  | spinExhaust i h hl => exact ⟨h0, huniq⟩
  | release i h =>
    refine ⟨?_, ?_⟩
    · intro _ j hj
      have hj2 : Function.update s.ts i ThreadState.idle j =
        ThreadState.holding := hj
      rcases eq_or_ne j i with rfl | hne
      · rw [Function.update_same] at hj2
        simp at hj2
      · rw [Function.update_noteq hne] at hj2
        exact hne (huniq j i hj2 h)
    · intro j k hj hk
      have hj2 : Function.update s.ts i ThreadState.idle j =
        ThreadState.holding := hj
      have hk2 : Function.update s.ts i ThreadState.idle k =
        ThreadState.holding := hk
      rcases eq_or_ne j i with rfl | hnej
      · rw [Function.update_same] at hj2
        simp at hj2
      · rw [Function.update_noteq hnej] at hj2
        rcases eq_or_ne k i with rfl | hnek
        · rw [Function.update_same] at hk2
          simp at hk2
        · rw [Function.update_noteq hnek] at hk2
          exact huniq j k hj2 hk2

/-- Every reachable system satisfies the mutual-exclusion invariant. -/
theorem mutexInv_reachable {n : Nat} {s : MutexSystem n}
    (h : MutexReachable n s) : MutexInv s := by
  induction h with
  | init => exact mutexInv_init n
  | step s s2 hr hstep ih => exact mutexInv_step ih hstep

/-- C1: in every reachable state of any number of threads running
`adaptive_spinlock_acquire` and release on one lock, at most one thread holds
the lock, and nobody holds it while the lock word is 0 — a thread becomes a
holder only through the `casSuccess` transition, the compare-and-swap of the
lock word from 0 (unlocked) to 1 (locked) at line 36. -/
theorem C1_mutual_exclusion (n : Nat) (s : MutexSystem n)
    (h : MutexReachable n s) :
    (∀ i j, s.ts i = .holding → s.ts j = .holding → i = j) ∧
    (s.lock = 0 → ∀ i, s.ts i ≠ .holding) :=
  ⟨(mutexInv_reachable h).2, (mutexInv_reachable h).1⟩

/-- Witness for C1: a concrete reachable state of a 1-thread system in which
thread 0 acquired the lock (idle, then trying, then a successful CAS from 0
to 1); mutual exclusion there identifies any two holders. -/
theorem C1_mutual_exclusion_witness : (0 : Fin 1) = 0 := by
  have h1 : MutexReachable 1
      ⟨0, 0, Function.update (fun _ => ThreadState.idle) (0 : Fin 1)
        ThreadState.trying⟩ :=
    MutexReachable.step _ _ MutexReachable.init
      (MutexStep.callAcquire _ 0 rfl)
  have h2 : MutexReachable 1
      ⟨1, contention_on_acquire 0,
        Function.update (Function.update (fun _ => ThreadState.idle) (0 : Fin 1)
          ThreadState.trying) (0 : Fin 1) ThreadState.holding⟩ :=
    MutexReachable.step _ _ h1
      (MutexStep.casSuccess _ 0 (by simp [Function.update_same]) rfl)
  exact (C1_mutual_exclusion 1 _ h2).1 0 0 (by simp [Function.update_same])
    (by simp [Function.update_same])

end PerfOpt
